import Mathlib

/-!
Shallow embedding of the fantasy-draft backend, from
`app/models/player.py`, `app/models/chat.py`, `app/services/rag_service.py`,
`app/services/player_service.py` and `app/services/api_service.py`, together
with proofs about the caching, fallback, enrichment and scoring logic.

Python numbers (int and float) are idealised as rationals.  Machine floats
never overflow in the ranges involved, so this is the standard shallow
embedding.  Fallible computations return `Except Unit`, where `.error ()`
stands for a Python exception escaping the modelled code.
-/

namespace FantasyDraft

/-- The closed position enum of `app/models/player.py` (`class Position`),
in declaration order. -/
inductive Position where
  | QB | RB | WR | TE | K | DEF
deriving DecidableEq

/-- The members of `Position` in declaration order, as iterated by
`for pos in Position` in `PlayerService.get_positional_scarcity`. -/
def positionList : List Position := [.QB, .RB, .WR, .TE, .K, .DEF]

/-- A value of a pydantic field typed `Optional[Union[int, str]]` or
`Optional[Union[float, str]]`: absent (`None`), a number, or a string such
as the `"N/A"` marker written by `APIService._map_sleeper_player`. -/
inductive Val where
  | none
  | num (q : ℚ)
  | str (s : String)
deriving DecidableEq

/-- Python truthiness of such a field value: `None`, `0` and `""` are falsy,
everything else is truthy. -/
def Val.truthy : Val → Bool
  | .none => false
  | .num q => decide (q ≠ 0)
  | .str s => decide (s ≠ "")

/-- Interpolation of a field value inside a Python f-string: `None` renders
as `"None"`, a string as itself; the decimal rendering of a number is
idealised by the canonical rational rendering. -/
def Val.interp : Val → String
  | .none => "None"
  | .num q => toString q
  | .str s => s

/-- Python `str.lower()`, character by character (ASCII behaviour). -/
def py_lower (s : String) : String :=
  ⟨s.data.map Char.toLower⟩

/-- The `Player` model of `app/models/player.py`.  The optional numeric
fields also carry string values (pydantic `Union` types); `injury_status`,
`bye_week`, `age` and `experience` are plain optionals.  The model declares
no `last_year_points` field, so reading that attribute on an instance
raises `AttributeError` (pydantic ignores unknown keys on construction). -/
structure Player where
  id : String
  name : String
  position : Position
  team : String
  rank : Val := .none
  adp : Val := .none
  projected_points : Val := .none
  value_score : Val := .none
  injury_status : Option String := .none
  bye_week : Option ℤ := .none
  age : Option ℤ := .none
  experience : Option ℤ := .none
deriving DecidableEq

/-- The `Recommendation` model: a chosen player, reasoning text and a
confidence score.  `alternatives` and `risk_assessment` keep their pydantic
defaults in every construction performed by `RAGService`. -/
structure Recommendation where
  player : Player
  reasoning : String
  confidence_score : ℚ
  alternatives : List Player := []
  risk_assessment : String := ""
deriving DecidableEq

/-- The `RecommendationResponse` model. -/
structure RecommendationResponse where
  primary_recommendation : Recommendation
  alternative_recommendations : List Recommendation := []
  strategy_notes : String := ""
  next_picks_suggestion : List String := []
deriving DecidableEq

/-- The `ChatRequest` model, restricted to what `RAGService.chat` and the
cache key consult: the message text and the textual form
`str(request.draft_context)` of the draft-context dictionary. -/
structure ChatRequest where
  message : String
  draft_context : String
deriving DecidableEq

/-- The `ChatResponse` model.  `RAGService` only ever sets `response` and
`confidence`; the remaining fields keep their pydantic defaults. -/
structure ChatResponse where
  response : String
  sources : List String := []
  confidence : ℚ := 0
  suggested_actions : List String := []
  follow_up_questions : List String := []
deriving DecidableEq

/-! ### The deterministic rule-based recommendation fallback

`RAGService._rule_based_recommendations` sorts the available players with

  `sorted(available_players, key=lambda p: (p.rank or float("inf"), -(p.projected_points or 0)))`

The first key component is the rank when truthy, else `float("inf")`; a
truthy string rank stays a string.  The second component applies unary
minus to `(projected_points or 0)`: for a truthy string value this raises
`TypeError` while the keys are being computed, and comparing a string first
component against a numeric one raises `TypeError` during the sort. -/

/-- First sort-key component `p.rank or float("inf")`: a truthy numeric
rank, a truthy string rank, or positive infinity for a falsy rank. -/
inductive RankKey where
  | num (q : ℚ)
  | inf
  | str (s : String)
deriving DecidableEq

/-- Whether the first key component is a Python string. -/
def RankKey.isStr : RankKey → Bool
  | .str _ => true
  | _ => false

/-- The first sort-key component of a player. -/
def sort_key_rank (p : Player) : RankKey :=
  match p.rank with
  | .none => .inf
  | .num q => if q = 0 then .inf else .num q
  | .str s => if s = "" then .inf else .str s

/-- The second sort-key component `-(p.projected_points or 0)` in the cases
where its computation does not raise.  `-(q or 0)` equals `-q` for every
number `q`, and a falsy `None` or `""` gives `-0 = 0`. -/
def sort_key_pp (p : Player) : ℚ :=
  match p.projected_points with
  | .num q => -q
  | _ => 0

/-- Whether computing `-(p.projected_points or 0)` raises `TypeError`:
exactly when `projected_points` is a truthy string such as `"N/A"`. -/
def pp_key_raises (p : Player) : Bool :=
  match p.projected_points with
  | .str s => decide (s ≠ "")
  | _ => false

/-- Whether the sort itself raises.  The key of some player may fail to
compute, or the list may hold both a string first component and a numeric
one, which Python cannot compare. -/
def sort_raises (ps : List Player) : Bool :=
  ps.any pp_key_raises ||
    (ps.any (fun p => (sort_key_rank p).isStr) &&
      ps.any (fun p => !(sort_key_rank p).isStr))

/-- Comparison of full sort keys, total on the whole type: numeric first
components (with `inf` greatest) come before string ones, and equal first
components fall through to the second component.  On a list whose first
components do not mix strings with numbers — the only lists Python sorts
without raising — this is exactly the Python tuple order. -/
def sort_key_le : RankKey × ℚ → RankKey × ℚ → Bool
  | (.num a, x), (.num b, y) => decide (a < b) || (decide (a = b) && decide (x ≤ y))
  | (.num _, _), (.inf, _) => true
  | (.num _, _), (.str _, _) => true
  | (.inf, _), (.num _, _) => false
  | (.inf, x), (.inf, y) => decide (x ≤ y)
  | (.inf, _), (.str _, _) => true
  | (.str _, _), (.num _, _) => false
  | (.str _, _), (.inf, _) => false
  | (.str a, x), (.str b, y) => decide (a < b) || (decide (a = b) && decide (x ≤ y))

/-- The sort order on players induced by their keys. -/
def sort_key_rel (p q : Player) : Prop :=
  sort_key_le (sort_key_rank p, sort_key_pp p) (sort_key_rank q, sort_key_pp q) = true

instance : DecidableRel sort_key_rel := fun _ _ => instDecidableEqBool _ _

/-- The sorted player list.  Python `sorted` is the unique stable sort by
the key order; `List.insertionSort` with the non-strict key relation is
stable in the same sense (an element is inserted before the first element
it is related to, hence after all earlier equal-key elements). -/
def sorted_players (ps : List Player) : List Player :=
  List.insertionSort sort_key_rel ps

/-- The placeholder player of the empty-input sentinel response. -/
def no_players_player : Player :=
  { id := "", name := "No players available", position := .QB, team := "",
    rank := .num 0, projected_points := .num 0, value_score := .num 0 }

/-- The sentinel response returned when `available_players` is empty. -/
def no_players_response : RecommendationResponse :=
  { primary_recommendation :=
      { player := no_players_player,
        reasoning := "No players available for recommendation",
        confidence_score := 0 },
    alternative_recommendations := [],
    strategy_notes := "No players available",
    next_picks_suggestion := [] }

/-- The second sentinel of the source (guarding `sorted_players` being
empty, which cannot happen for a non-empty input). -/
def no_valid_players_response : RecommendationResponse :=
  { primary_recommendation :=
      { player := { id := "", name := "No valid players", position := .QB, team := "",
                    rank := .num 0, projected_points := .num 0, value_score := .num 0 },
        reasoning := "No valid players available for recommendation",
        confidence_score := 0 },
    alternative_recommendations := [],
    strategy_notes := "No valid players",
    next_picks_suggestion := [] }

/-- `RAGService._rule_based_recommendations`.  The empty list returns the
sentinel before any sorting; otherwise the players are sorted by the key
above (raising `TypeError` exactly when `sort_raises`), the head becomes
the primary recommendation with confidence `0.6`, and the next two players
become alternatives with confidences `0.5 - i*0.1`. -/
def rule_based_recommendations (available_players : List Player) :
    Except Unit RecommendationResponse :=
  if available_players.isEmpty then
    .ok no_players_response
  else if sort_raises available_players then
    .error ()
  else
    match sorted_players available_players with
    | [] => .ok no_valid_players_response
    | primary_player :: rest =>
      .ok
        { primary_recommendation :=
            { player := primary_player,
              reasoning := primary_player.name ++
                " is the highest ranked available player with " ++
                primary_player.projected_points.interp ++ " projected points",
              confidence_score := 0.6 },
          alternative_recommendations :=
            (rest.take 2).enum.map (fun ip =>
              { player := ip.2,
                reasoning := "Alternative option: " ++ ip.2.name ++ " with " ++
                  ip.2.projected_points.interp ++ " projected points",
                confidence_score := 0.5 - (ip.1 : ℚ) * 0.1 }),
          strategy_notes := "Using rule-based recommendations with actual player data",
          next_picks_suggestion := ["Consider positional needs", "Check for value picks"] }

/-! ### Caching and `get_recommendations`

`RAGService` keeps `recommendation_cache` and `chat_cache` as dictionaries
mapping a derived string key to a pair `(timestamp, response)`, with
`cache_duration = 300` seconds.  Timestamps are modelled as integers. -/

/-- A cache dictionary: key to `(timestamp, response)`. -/
abbrev Cache (R : Type) := String → Option (ℤ × R)

/-- The empty cache. -/
def Cache.empty {R : Type} : Cache R := fun _ => .none

/-- Dictionary store `cache[key] = value`. -/
def Cache.insert {R : Type} (c : Cache R) (key : String) (v : ℤ × R) : Cache R :=
  fun k => if k = key then some v else c k

/-- Dictionary removal `del cache[key]`. -/
def Cache.erase {R : Type} (c : Cache R) (key : String) : Cache R :=
  fun k => if k = key then .none else c k

/-- `self.cache_duration = 300  # 5 minutes`. -/
def cache_duration : ℤ := 300

/-- `RAGService._is_cache_valid`: the entry timestamp is less than
`cache_duration` seconds old. -/
def is_cache_valid (now timestamp : ℤ) : Bool :=
  decide (now - timestamp < cache_duration)

/-- The `user_team` dictionary as consulted by `_get_cache_key`: only
`[p.get("name", "") for p in user_team.get("players", [])]` is read. -/
structure UserTeam where
  player_names : List String
deriving DecidableEq

/-- The `draft_context` dictionary as consulted by `_get_cache_key`:
`draft_context.get("current_round", "")` and
`draft_context.get("current_pick", "")`; a missing key renders as `""`. -/
structure DraftContextDict where
  current_round : Option ℤ := .none
  current_pick : Option ℤ := .none
deriving DecidableEq

/-- f-string rendering of a possibly-missing integer dictionary entry. -/
def optInterp : Option ℤ → String
  | .none => ""
  | some n => toString n

/-- `RAGService._get_cache_key`: names of the first five available players,
names of the roster players, and `round-pick`, joined with `-` and `:`. -/
def get_cache_key (available_players : List Player) (user_team : UserTeam)
    (draft_context : DraftContextDict) : String :=
  String.intercalate "-" ((available_players.take 5).map (·.name)) ++ ":" ++
    String.intercalate "-" user_team.player_names ++ ":" ++
    (optInterp draft_context.current_round ++ "-" ++ optInterp draft_context.current_pick)

/-- `RAGService._get_chat_cache_key`, parametric in the Python `hash`
function `h`: `"chat:{hash(message.lower().strip())}:{hash(str(draft_context))}"`. -/
def get_chat_cache_key (h : String → ℤ) (request : ChatRequest) : String :=
  "chat:" ++ toString (h (py_lower request.message).trim) ++ ":" ++
    toString (h request.draft_context)

/-- A well-shaped parse of the structured completion returned by the
backend chain: the JSON decoded by `_parse_recommendation_response` with
all accessed keys present and of the expected types. -/
structure ParsedRecommendation where
  primary_player_name : String
  primary_reasoning : String
  primary_confidence : ℚ
  alternatives : List (String × String × ℚ)
  strategy_notes : String := ""
deriving DecidableEq

/-- `RAGService._find_player_by_name`: first case-insensitive exact name
match among the players. -/
def find_player_by_name (name : String) (players : List Player) : Option Player :=
  players.find? (fun p => py_lower p.name == py_lower name)

/-- `RAGService._parse_recommendation_response`.  `parsed = none` stands
for any failure while extracting or decoding the JSON (the handler then
falls back to the rule-based computation); an unresolvable primary player
falls back the same way.  A failure raised by the rule-based computation
itself is re-raised by the final handler call and escapes. -/
def parse_recommendation_response (parsed : Option ParsedRecommendation)
    (available_players : List Player) : Except Unit RecommendationResponse :=
  match parsed with
  | .none => rule_based_recommendations available_players
  | some data =>
    match find_player_by_name data.primary_player_name available_players with
    | .none => rule_based_recommendations available_players
    | some primary_player =>
      .ok
        { primary_recommendation :=
            { player := primary_player,
              reasoning := data.primary_reasoning,
              confidence_score := data.primary_confidence },
          alternative_recommendations :=
            data.alternatives.filterMap (fun alt =>
              (find_player_by_name alt.1 available_players).map (fun p =>
                { player := p, reasoning := alt.2.1, confidence_score := alt.2.2 })),
          strategy_notes := data.strategy_notes,
          next_picks_suggestion :=
            ["Consider positional balance", "Look for value picks", "Monitor injury status"] }

/-- Outcome of the optional LLM chain for one recommendation request:
no chain configured, the chain call raised, or the chain returned a
completion whose parse is `parsed`. -/
inductive QAChainOutcome where
  | noChain
  | chainRaises
  | completion (parsed : Option ParsedRecommendation)
deriving DecidableEq

/-- The response computation of `get_recommendations` once the cache has
missed.  Without a chain, and when the chain call raises, the rule-based
fallback runs (outside any handler, so its own failure escapes); a
completion goes through `_parse_recommendation_response`. -/
def compute_recommendation (outcome : QAChainOutcome) (available_players : List Player) :
    Except Unit RecommendationResponse :=
  match outcome with
  | .noChain => rule_based_recommendations available_players
  | .chainRaises => rule_based_recommendations available_players
  | .completion parsed => parse_recommendation_response parsed available_players

/-- `RAGService.get_recommendations`.  The derived key is looked up; a
live entry is returned as-is (the boolean records a cache hit); an expired
entry is deleted and recomputation proceeds; a computed response is stored
under `(now, response)`.  An exception escaping the computation propagates
to the caller. -/
def get_recommendations (c : Cache RecommendationResponse) (now : ℤ)
    (available_players : List Player) (user_team : UserTeam)
    (draft_context : DraftContextDict) (outcome : QAChainOutcome) :
    Except Unit (RecommendationResponse × Bool × Cache RecommendationResponse) :=
  let key := get_cache_key available_players user_team draft_context
  match c key with
  | some (t, r) =>
    if is_cache_valid now t then
      .ok (r, true, c)
    else
      match compute_recommendation outcome available_players with
      | .ok response => .ok (response, false, (c.erase key).insert key (now, response))
      | .error e => .error e
  | .none =>
    match compute_recommendation outcome available_players with
    | .ok response => .ok (response, false, c.insert key (now, response))
    | .error e => .error e

/-! ### Chat -/

/-- Prefix-aligned match of a character pattern against a target. -/
def chars_match : List Char → List Char → Bool
  | [], _ => true
  | _ :: _, [] => false
  | a :: as, b :: bs => a == b && chars_match as bs

/-- Containment of a character pattern somewhere in a target. -/
def chars_contain (pat : List Char) : List Char → Bool
  | [] => chars_match pat []
  | l@(_ :: rest) => chars_match pat l || chars_contain pat rest

/-- Python substring containment `pat in s`. -/
def str_contains_sub (s pat : String) : Bool :=
  chars_contain pat.data s.data

/-- The fixed pick-advice text of `_rule_based_chat`. -/
def pick_advice_text : String :=
  "Based on your current draft position, I recommend taking the best available player that fits your team\x27s needs. Consider positional scarcity and value."

/-- The fixed round-strategy text of `_rule_based_chat`. -/
def strategy_advice_text : String :=
  "Focus on building a balanced team. In early rounds, take the best player available. In middle rounds, address positional needs. In late rounds, look for value picks."

/-- The fixed position-scarcity text of `_rule_based_chat`. -/
def position_advice_text : String :=
  "Consider your team\x27s current position distribution and the scarcity of positions in the available player pool."

/-- The generic help text of `_rule_based_chat`. -/
def generic_help_text : String :=
  "I\x27m here to help with your fantasy football draft! Ask me about player recommendations, draft strategy, or positional analysis."

/-- `RAGService._rule_based_chat`: fixed-order substring branches over the
lower-cased message, every response with confidence `0.6`. -/
def rule_based_chat (request : ChatRequest) : ChatResponse :=
  let message := py_lower request.message
  let response :=
    if str_contains_sub message "recommend" || str_contains_sub message "who should" then
      pick_advice_text
    else if str_contains_sub message "strategy" then
      strategy_advice_text
    else if str_contains_sub message "position" then
      position_advice_text
    else
      generic_help_text
  { response := response, confidence := 0.6 }

/-- Outcome of the optional conversation chain for one chat request. -/
inductive ChatChainOutcome where
  | noChain
  | chainRaises
  | completion (answer : String) (has_source_documents : Bool)
deriving DecidableEq

/-- The response computation of `chat` once the cache has missed: a chain
completion carries confidence `0.9` with supporting source documents and
`0.7` without; otherwise the rule-based branch table answers. -/
def compute_chat (outcome : ChatChainOutcome) (request : ChatRequest) : ChatResponse :=
  match outcome with
  | .noChain => rule_based_chat request
  | .chainRaises => rule_based_chat request
  | .completion answer has_docs =>
    { response := answer, confidence := if has_docs then 0.9 else 0.7 }

/-- `RAGService.chat`: the same lookup, lazy expiry and store sequence as
`get_recommendations`, keyed by `_get_chat_cache_key` (parametric in the
Python `hash` function `h`).  No step of it can raise. -/
def chat (c : Cache ChatResponse) (now : ℤ) (h : String → ℤ)
    (request : ChatRequest) (outcome : ChatChainOutcome) :
    ChatResponse × Bool × Cache ChatResponse :=
  let key := get_chat_cache_key h request
  match c key with
  | some (t, r) =>
    if is_cache_valid now t then
      (r, true, c)
    else
      let response := compute_chat outcome request
      (response, false, (c.erase key).insert key (now, response))
  | .none =>
    let response := compute_chat outcome request
    (response, false, c.insert key (now, response))

/-! ### Player enrichment (`app/services/player_service.py`) -/

/-- The lookup dictionary
`{player.name.lower(): player for player in sleeper_players}` built by
`enrich_recommendation_players`; a later entry overwrites an earlier one
with the same lower-cased name. -/
def sleeper_lookup (sleeper_players : List Player) (key : String) : Option Player :=
  sleeper_players.reverse.find? (fun p => py_lower p.name == key)

/-- The per-player merge of `enrich_recommendation_players` when Sleeper
data was found: identity fields and `bye_week` stay local,
`projected_points` stays local exactly when truthy and different from the
`"N/A"` marker, and every other enriched field takes the Sleeper value. -/
def merge_sleeper_player (p sleeper_player : Player) : Player :=
  { id := p.id,
    name := p.name,
    position := p.position,
    team := p.team,
    rank := sleeper_player.rank,
    adp := sleeper_player.adp,
    projected_points :=
      if p.projected_points.truthy && !(p.projected_points == .str "N/A") then
        p.projected_points
      else
        sleeper_player.projected_points,
    value_score := sleeper_player.value_score,
    injury_status := sleeper_player.injury_status,
    bye_week := p.bye_week,
    age := sleeper_player.age,
    experience := sleeper_player.experience }

/-- The field-by-field copy constructed on the unmatched branch and by the
failure fallback of `enrich_recommendation_players`. -/
def copy_player (p : Player) : Player :=
  { id := p.id, name := p.name, position := p.position, team := p.team,
    rank := p.rank, adp := p.adp, projected_points := p.projected_points,
    value_score := p.value_score, injury_status := p.injury_status,
    bye_week := p.bye_week, age := p.age, experience := p.experience }

/-- `PlayerService.enrich_recommendation_players`.  The external call
`get_sleeper_players_by_names` is an oracle argument: `.none` stands for
the whole `try` body raising, upon which the handler rebuilds and returns
field-identical copies of the input.  When no player has a truthy name the
input list is returned before the external call. -/
def enrich_recommendation_players (sleeper_result : Option (List Player))
    (available_players : List Player) : List Player :=
  match sleeper_result with
  | .none => available_players.map copy_player
  | some sleeper_players =>
    if (available_players.filter (fun p => p.name ≠ "")).isEmpty then
      available_players
    else
      available_players.map (fun p =>
        match sleeper_lookup sleeper_players (py_lower p.name) with
        | some sleeper_player => merge_sleeper_player p sleeper_player
        | .none => copy_player p)

/-- The `position_counts` dictionary of
`PlayerService.get_positional_scarcity`, built by
`position_counts[pos] = position_counts.get(pos, 0) + 1`. -/
def position_counts (available_players : List Player) : Position → ℕ :=
  available_players.foldl
    (fun counts p pos => if pos = p.position then counts pos + 1 else counts pos)
    (fun _ => 0)

/-- `PlayerService.get_positional_scarcity`: one entry per enum member in
declaration order, classifying the count of that position. -/
def get_positional_scarcity (available_players : List Player) :
    List (Position × String) :=
  positionList.map (fun pos =>
    let count := position_counts available_players pos
    (pos, if count ≤ 5 then "High" else if count ≤ 15 then "Medium" else "Low"))

/-! ### Synthetic ADP and value score (`app/services/api_service.py`) -/

/-- Round-half-to-even to an integer, the behaviour of Python `round`. -/
def round_half_even (x : ℚ) : ℤ :=
  if x - ⌊x⌋ < 1/2 then ⌊x⌋
  else if x - ⌊x⌋ > 1/2 then ⌊x⌋ + 1
  else if 2 ∣ ⌊x⌋ then ⌊x⌋ else ⌊x⌋ + 1

/-- Python `round(x, 1)`. -/
def py_round_1 (x : ℚ) : ℚ :=
  (round_half_even (x * 10) : ℚ) / 10

/-- The bounded pseudo-random ADP offset of `_map_sleeper_player`:
`(hash(player_id) % 20) - 10`, in `[-10, 9]` (Python `%` by a positive
modulus is the Euclidean remainder, as is Lean `Int.emod`). -/
def sleeper_adp_variance (id_hash : ℤ) : ℤ :=
  id_hash % 20 - 10

/-- The synthetic ADP of `_map_sleeper_player`:
`round(max(1.0, rank + adp_variance), 1)`. -/
def sleeper_adp (rank id_hash : ℤ) : ℚ :=
  py_round_1 (max 1 ((rank : ℚ) + (sleeper_adp_variance id_hash : ℚ)))

/-- The synthetic value score of `_map_sleeper_player`, computed from the
signed gap between the synthetic ADP and the rank, then rounded. -/
def sleeper_value_score (rank id_hash : ℤ) : ℚ :=
  let adp := sleeper_adp rank id_hash
  let value_score :=
    if 0 < adp ∧ 0 < rank then
      let adp_rank_diff := adp - (rank : ℚ)
      if 0 < adp_rank_diff then
        min 10 (7 + adp_rank_diff / 10)
      else
        max 1 (7 + adp_rank_diff / 10)
    else
      max 1 (10 - (rank : ℚ) / 30)
  py_round_1 value_score

/-! ## Concrete instances used by the claims -/

/-- A player whose `projected_points` carries the truthy string marker
`"N/A"`, as produced by `APIService._map_sleeper_player` for players with
no usable search rank. -/
def na_player : Player :=
  { id := "na1", name := "Nathan Marker", position := .WR, team := "FA",
    rank := .num 12, projected_points := .str "N/A" }

/-- Four players with ranks `3`, `1`, unknown and `2`, documenting the
fallback ordering scenario. -/
def rank_scenario_players : List Player :=
  [{ id := "p3", name := "Charlie Third", position := .RB, team := "AAA", rank := .num 3,
     projected_points := .num 110 },
   { id := "p1", name := "Alice First", position := .WR, team := "BBB", rank := .num 1,
     projected_points := .num 150 },
   { id := "pu", name := "Una Unknown", position := .TE, team := "CCC", rank := .none,
     projected_points := .num 90 },
   { id := "p2", name := "Bob Second", position := .QB, team := "DDD", rank := .num 2,
     projected_points := .num 130 }]

/-- A locally scraped player whose projected points are the valid number
`0.0` (present and different from the `"N/A"` marker). -/
def zero_pp_player : Player :=
  { id := "z1", name := "Zed Zero", position := .K, team := "EEE",
    rank := .num 40, projected_points := .num 0 }

/-- A Sleeper record for the same name carrying different stats. -/
def sleeper_zed_player : Player :=
  { id := "s-z1", name := "Zed Zero", position := .K, team := "EEE",
    rank := .num 31, adp := .num 33, projected_points := .num 5,
    value_score := .num 7, injury_status := some "Questionable",
    age := some 27, experience := some 4 }


/-- A single well-formed player list used by the C1 cache scenario. -/
def c1_witness_players : List Player :=
  [{ id := "w1", name := "Wilma Witness", position := .RB, team := "T9",
     rank := .num 4 }]

/-- First request of the key-collision scenario. -/
def c2_first_players : List Player :=
  [{ id := "x1", name := "Alyssa Ace", position := .QB, team := "T1",
     rank := .num 1 }]

/-- Second request of the key-collision scenario: the same single name,
every other field different. -/
def c2_second_players : List Player :=
  [{ id := "x2", name := "Alyssa Ace", position := .WR, team := "T2",
     rank := .none, injury_status := some "Out", age := some 33 }]

/-! ## Shared lemmas -/

/-- Transitivity of the lexicographic comparison on one component type. -/
theorem lex_pair_trans {α : Type} [LinearOrder α] {a b c : α} {x y z : ℚ}
    (h1 : a < b ∨ a = b ∧ x ≤ y) (h2 : b < c ∨ b = c ∧ y ≤ z) :
    a < c ∨ a = c ∧ x ≤ z := by
  rcases h1 with h1 | ⟨rfl, hxy⟩ <;> rcases h2 with h2 | ⟨rfl, hyz⟩
  · exact .inl (h1.trans h2)
  · exact .inl h1
  · exact .inl h2
  · exact .inr ⟨rfl, hxy.trans hyz⟩

/-- Totality of the lexicographic comparison on one component type. -/
theorem lex_pair_total {α : Type} [LinearOrder α] (a b : α) (x y : ℚ) :
    (a < b ∨ a = b ∧ x ≤ y) ∨ (b < a ∨ b = a ∧ y ≤ x) := by
  rcases lt_trichotomy a b with h | rfl | h
  · exact .inl (.inl h)
  · rcases le_total x y with h | h
    · exact .inl (.inr ⟨rfl, h⟩)
    · exact .inr (.inr ⟨rfl, h⟩)
  · exact .inr (.inl h)

theorem sort_key_le_total (u v : RankKey × ℚ) :
    sort_key_le u v = true ∨ sort_key_le v u = true := by
  rcases u with ⟨a | _ | a, x⟩ <;> rcases v with ⟨b | _ | b, y⟩ <;>
    simp only [sort_key_le, Bool.or_eq_true, Bool.and_eq_true, decide_eq_true_eq] <;>
    first
      | trivial
      | exact lex_pair_total a b x y
      | exact le_total x y

theorem sort_key_le_trans (u v w : RankKey × ℚ)
    (h1 : sort_key_le u v = true) (h2 : sort_key_le v w = true) :
    sort_key_le u w = true := by
  rcases u with ⟨a | _ | a, x⟩ <;> rcases v with ⟨b | _ | b, y⟩ <;>
    rcases w with ⟨c | _ | c, z⟩ <;>
    simp only [sort_key_le, Bool.or_eq_true, Bool.and_eq_true, decide_eq_true_eq] at * <;>
    first
      | trivial
      | exact lex_pair_trans h1 h2
      | exact le_trans h1 h2

instance : IsTotal Player sort_key_rel :=
  ⟨fun p q => sort_key_le_total (sort_key_rank p, sort_key_pp p) (sort_key_rank q, sort_key_pp q)⟩

instance : IsTrans Player sort_key_rel :=
  ⟨fun p q r => sort_key_le_trans _ _ _⟩

/-- The sorted list is a permutation of the input. -/
theorem sorted_players_perm (ps : List Player) : List.Perm (sorted_players ps) ps :=
  List.perm_insertionSort sort_key_rel ps

/-- The sorted list is sorted with respect to the key order. -/
theorem sorted_players_sorted (ps : List Player) :
    List.Sorted sort_key_rel (sorted_players ps) :=
  List.sorted_insertionSort sort_key_rel ps

/-- Decoding of the key comparison on two truthy numeric ranks: ascending
rank, ties by descending projected points (the second component is the
negated projected points). -/
theorem sort_key_le_num_num (a b x y : ℚ) :
    sort_key_le (.num a, x) (.num b, y) = true ↔ (a < b ∨ (a = b ∧ x ≤ y)) := by
  simp [sort_key_le]

/-- Decoding of the key comparison against a falsy rank: every truthy
numeric rank comes before it. -/
theorem sort_key_le_num_inf (a x y : ℚ) :
    sort_key_le (.num a, x) (.inf, y) = true ∧ sort_key_le (.inf, y) (.num a, x) = false := by
  simp [sort_key_le]

/-- Decoding of the key comparison on two falsy ranks: descending
projected points. -/
theorem sort_key_le_inf_inf (x y : ℚ) :
    (sort_key_le (.inf, x) (.inf, y) = true ↔ x ≤ y) := by
  simp [sort_key_le]

/-- The `position_counts` fold counts exactly the players of a position. -/
theorem position_counts_aux (ps : List Player) (acc : Position → ℕ) (pos : Position) :
    ps.foldl (fun counts p pos2 => if pos2 = p.position then counts pos2 + 1 else counts pos2)
        acc pos = acc pos + ps.countP (fun p => p.position == pos) := by
  induction ps generalizing acc with
  | nil => simp
  | cons p ps ih =>
    simp only [List.foldl_cons, List.countP_cons, ih]
    by_cases h : pos = p.position
    · simp [h, beq_iff_eq]
      omega
    · have : (p.position == pos) = false := by
        simpa [beq_iff_eq] using fun e => h e.symm
      simp [h, this]

theorem position_counts_eq (ps : List Player) (pos : Position) :
    position_counts ps pos = ps.countP (fun p => p.position == pos) := by
  simpa using position_counts_aux ps (fun _ => 0) pos

/-! ## Claims -/

/-- C10: for every list of available players, the positional-scarcity
analysis returns a map with exactly one entry per enum position, in
declaration order, whose value classifies the count of players of that
position in the list as High (at most 5), Medium (6 to 15) or Low (more);
it is total, and on the empty list every position reads High. -/
theorem claim_C10 (ps : List Player) :
    (get_positional_scarcity ps).map Prod.fst = [.QB, .RB, .WR, .TE, .K, .DEF] ∧
    (∀ pos : Position,
      (pos,
        if ps.countP (fun p => p.position == pos) ≤ 5 then "High"
        else if ps.countP (fun p => p.position == pos) ≤ 15 then "Medium"
        else "Low") ∈ get_positional_scarcity ps) ∧
    get_positional_scarcity [] =
      [(.QB, "High"), (.RB, "High"), (.WR, "High"),
       (.TE, "High"), (.K, "High"), (.DEF, "High")] := by
  refine ⟨by simp [get_positional_scarcity, positionList], ?_, by decide⟩
  intro pos
  rw [← position_counts_eq]
  cases pos <;> simp [get_positional_scarcity, positionList]

/-- C9: the rule-based chat responder branches on substring matches of the
lower-cased message in fixed order (pick advice for "recommend" or
"who should", else strategy, else position, else generic help), always
with confidence exactly 0.6; the message "What\x27s my draft strategy?"
yields the fixed strategy-advice text with confidence 0.6. -/
theorem claim_C9 :
    (∀ request : ChatRequest,
      (rule_based_chat request).confidence = 0.6 ∧
      ((str_contains_sub (py_lower request.message) "recommend" ||
          str_contains_sub (py_lower request.message) "who should") = true →
        (rule_based_chat request).response = pick_advice_text) ∧
      ((str_contains_sub (py_lower request.message) "recommend" ||
          str_contains_sub (py_lower request.message) "who should") = false →
        str_contains_sub (py_lower request.message) "strategy" = true →
        (rule_based_chat request).response = strategy_advice_text) ∧
      ((str_contains_sub (py_lower request.message) "recommend" ||
          str_contains_sub (py_lower request.message) "who should") = false →
        str_contains_sub (py_lower request.message) "strategy" = false →
        str_contains_sub (py_lower request.message) "position" = true →
        (rule_based_chat request).response = position_advice_text) ∧
      ((str_contains_sub (py_lower request.message) "recommend" ||
          str_contains_sub (py_lower request.message) "who should") = false →
        str_contains_sub (py_lower request.message) "strategy" = false →
        str_contains_sub (py_lower request.message) "position" = false →
        (rule_based_chat request).response = generic_help_text)) ∧
    rule_based_chat { message := "What\x27s my draft strategy?", draft_context := "None" } =
      { response := strategy_advice_text, confidence := 0.6 } := by
  refine ⟨fun request => ⟨rfl, ?_, ?_, ?_, ?_⟩, rfl⟩ <;>
    intros h1 <;> simp only [rule_based_chat, h1] <;>
    first
      | rfl
      | (intros h2 <;> simp only [h2] <;>
          first
            | rfl
            | (intros h3 <;> simp only [h3] <;> rfl))

theorem claim_C9_witness :
    (str_contains_sub (py_lower "Tell me about strategy") "recommend" ||
       str_contains_sub (py_lower "Tell me about strategy") "who should") = false ∧
    str_contains_sub (py_lower "Tell me about strategy") "strategy" = true ∧
    (rule_based_chat { message := "Tell me about strategy", draft_context := "None" }).response =
      strategy_advice_text :=
  ⟨by decide, by decide,
    (claim_C9.1 { message := "Tell me about strategy", draft_context := "None" }).2.2.1
      (by decide) (by decide)⟩

/-- C4: a recommendation request with an empty available-player list (and
no live entry under its derived key) returns the sentinel response whose
primary recommendation is the placeholder "no players available" player
with confidence exactly 0, for every backend outcome, and no exception is
raised. -/
theorem claim_C4 (c : Cache RecommendationResponse) (now : ℤ) (user_team : UserTeam)
    (draft_context : DraftContextDict) (outcome : QAChainOutcome)
    (hmiss : c (get_cache_key [] user_team draft_context) = .none) :
    get_recommendations c now [] user_team draft_context outcome =
      .ok (no_players_response, false,
        c.insert (get_cache_key [] user_team draft_context) (now, no_players_response)) ∧
    no_players_response.primary_recommendation.confidence_score = 0 ∧
    no_players_response.primary_recommendation.player.name = "No players available" := by
  have hcompute : compute_recommendation outcome [] = .ok no_players_response := by
    cases outcome with
    | noChain => rfl
    | chainRaises => rfl
    | completion parsed => cases parsed <;> rfl
  refine ⟨?_, rfl, rfl⟩
  simp only [get_recommendations, hmiss, hcompute]

theorem claim_C4_witness :
    (Cache.empty : Cache RecommendationResponse)
        (get_cache_key [] ⟨[]⟩ ⟨.none, .none⟩) = .none ∧
    get_recommendations Cache.empty 0 [] ⟨[]⟩ ⟨.none, .none⟩
        (.completion (some ⟨"Ghost Player", "missing", 0.9, [], ""⟩)) =
      .ok (no_players_response, false,
        Cache.insert Cache.empty (get_cache_key [] ⟨[]⟩ ⟨.none, .none⟩)
          (0, no_players_response)) := by
  refine ⟨rfl, ?_⟩
  exact (claim_C4 Cache.empty 0 ⟨[]⟩ ⟨.none, .none⟩
    (.completion (some ⟨"Ghost Player", "missing", 0.9, [], ""⟩)) rfl).1

/-- A live cache entry under the derived key is returned as-is, with no
computation consulted. -/
theorem get_recommendations_live_hit (c : Cache RecommendationResponse) (now : ℤ)
    (avail : List Player) (team : UserTeam) (dctx : DraftContextDict)
    (outcome : QAChainOutcome) (t : ℤ) (r : RecommendationResponse)
    (hc : c (get_cache_key avail team dctx) = some (t, r))
    (hlive : now - t < cache_duration) :
    get_recommendations c now avail team dctx outcome = .ok (r, true, c) := by
  simp [get_recommendations, hc, is_cache_valid, hlive]

/-- An expired entry is deleted and the fresh computation stored. -/
theorem get_recommendations_expired (c : Cache RecommendationResponse) (now : ℤ)
    (avail : List Player) (team : UserTeam) (dctx : DraftContextDict)
    (outcome : QAChainOutcome) (t : ℤ) (r r2 : RecommendationResponse)
    (hc : c (get_cache_key avail team dctx) = some (t, r))
    (hexp : ¬(now - t < cache_duration))
    (hcompute : compute_recommendation outcome avail = .ok r2) :
    get_recommendations c now avail team dctx outcome =
      .ok (r2, false,
        (c.erase (get_cache_key avail team dctx)).insert
          (get_cache_key avail team dctx) (now, r2)) := by
  simp [get_recommendations, hc, is_cache_valid, hexp, hcompute]

/-- A fresh key computes and stores under `(now, response)`. -/
theorem get_recommendations_miss (c : Cache RecommendationResponse) (now : ℤ)
    (avail : List Player) (team : UserTeam) (dctx : DraftContextDict)
    (outcome : QAChainOutcome) (r : RecommendationResponse)
    (hc : c (get_cache_key avail team dctx) = .none)
    (hcompute : compute_recommendation outcome avail = .ok r) :
    get_recommendations c now avail team dctx outcome =
      .ok (r, false, c.insert (get_cache_key avail team dctx) (now, r)) := by
  simp [get_recommendations, hc, hcompute]

/-- Lookup of the key just stored. -/
theorem cache_insert_self {R : Type} (c : Cache R) (key : String) (v : ℤ × R) :
    (c.insert key v) key = some v := by
  simp [Cache.insert]

/-- A live chat cache entry is returned as-is. -/
theorem chat_live_hit (c : Cache ChatResponse) (now : ℤ) (h : String → ℤ)
    (request : ChatRequest) (outcome : ChatChainOutcome) (t : ℤ) (resp : ChatResponse)
    (hc : c (get_chat_cache_key h request) = some (t, resp))
    (hlive : now - t < cache_duration) :
    chat c now h request outcome = (resp, true, c) := by
  simp [chat, hc, is_cache_valid, hlive]

/-- C1: `get_recommendations` implements get-or-compute over the derived
key with TTL `cache_duration = 300` seconds: a live entry (age < TTL) is
returned without recomputing; an expired entry is deleted and the fresh
result stored under `(now, result)`; on a fresh key the result is computed
and stored, a second identical request within the TTL window returns the
identical response with the computation not consulted (any backend
outcome), and a second call after TTL expiry recomputes. -/
theorem claim_C1 :
    cache_duration = 300 ∧
    (∀ (c : Cache RecommendationResponse) (now : ℤ) avail team dctx outcome t r,
      c (get_cache_key avail team dctx) = some (t, r) →
      now - t < cache_duration →
      get_recommendations c now avail team dctx outcome = .ok (r, true, c)) ∧
    (∀ (c : Cache RecommendationResponse) (now : ℤ) avail team dctx outcome t r r2,
      c (get_cache_key avail team dctx) = some (t, r) →
      ¬(now - t < cache_duration) →
      compute_recommendation outcome avail = .ok r2 →
      get_recommendations c now avail team dctx outcome =
        .ok (r2, false,
          (c.erase (get_cache_key avail team dctx)).insert
            (get_cache_key avail team dctx) (now, r2))) ∧
    (∀ (c : Cache RecommendationResponse) (t0 t1 : ℤ) avail team dctx outcome1 r1,
      c (get_cache_key avail team dctx) = .none →
      compute_recommendation outcome1 avail = .ok r1 →
      get_recommendations c t0 avail team dctx outcome1 =
        .ok (r1, false, c.insert (get_cache_key avail team dctx) (t0, r1)) ∧
      (t1 - t0 < cache_duration →
        ∀ outcome2,
          get_recommendations (c.insert (get_cache_key avail team dctx) (t0, r1)) t1
              avail team dctx outcome2 =
            .ok (r1, true, c.insert (get_cache_key avail team dctx) (t0, r1))) ∧
      (¬(t1 - t0 < cache_duration) →
        ∀ outcome2 r2, compute_recommendation outcome2 avail = .ok r2 →
          get_recommendations (c.insert (get_cache_key avail team dctx) (t0, r1)) t1
              avail team dctx outcome2 =
            .ok (r2, false,
              ((c.insert (get_cache_key avail team dctx) (t0, r1)).erase
                  (get_cache_key avail team dctx)).insert
                (get_cache_key avail team dctx) (t1, r2)))) := by
  refine ⟨rfl, get_recommendations_live_hit, get_recommendations_expired, ?_⟩
  intro c t0 t1 avail team dctx outcome1 r1 hc hcompute
  refine ⟨get_recommendations_miss c t0 avail team dctx outcome1 r1 hc hcompute, ?_, ?_⟩
  · intro hlive outcome2
    exact get_recommendations_live_hit _ t1 avail team dctx outcome2 t0 r1
      (cache_insert_self c _ _) hlive
  · intro hexp outcome2 r2 hcompute2
    exact get_recommendations_expired _ t1 avail team dctx outcome2 t0 r1 r2
      (cache_insert_self c _ _) hexp hcompute2

theorem claim_C1_witness :
    (Cache.empty : Cache RecommendationResponse)
        (get_cache_key c1_witness_players ⟨["Rob Roster"]⟩ ⟨some 2, some 14⟩) = .none ∧
    ((250 : ℤ) - 0 < cache_duration) ∧ ¬((400 : ℤ) - 0 < cache_duration) ∧
    ∃ r1 c1,
      get_recommendations Cache.empty 0 c1_witness_players ⟨["Rob Roster"]⟩
          ⟨some 2, some 14⟩ .noChain = .ok (r1, false, c1) ∧
      get_recommendations c1 250 c1_witness_players ⟨["Rob Roster"]⟩
          ⟨some 2, some 14⟩ .chainRaises = .ok (r1, true, c1) ∧
      ∃ c2,
        get_recommendations c1 400 c1_witness_players ⟨["Rob Roster"]⟩
            ⟨some 2, some 14⟩ .noChain = .ok (r1, false, c2) := by
  have h1 := (claim_C1.2.2.2 Cache.empty 0 250 c1_witness_players ⟨["Rob Roster"]⟩
    ⟨some 2, some 14⟩ .noChain _ rfl rfl)
  have h2 := (claim_C1.2.2.2 Cache.empty 0 400 c1_witness_players ⟨["Rob Roster"]⟩
    ⟨some 2, some 14⟩ .noChain _ rfl rfl)
  exact ⟨rfl, by decide, by decide,
    _, _, h1.1, h1.2.1 (by decide) .chainRaises,
    _, h2.2.2 (by decide) .noChain _ rfl⟩

/-- C2: the recommendation cache key depends only on the names of the
first five available players, the roster names, and the current round and
pick, so two requests agreeing there collide even if all other fields
differ, and within the TTL the second is served the first request response
for any backend outcome; a chat request whose derived key string equals
that of a cached one is treated as a hit with no payload equality check. -/
theorem claim_C2 :
    (∀ (a1 a2 : List Player) (t1 t2 : UserTeam) (d1 d2 : DraftContextDict),
      (a1.take 5).map Player.name = (a2.take 5).map Player.name →
      t1.player_names = t2.player_names →
      d1.current_round = d2.current_round →
      d1.current_pick = d2.current_pick →
      get_cache_key a1 t1 d1 = get_cache_key a2 t2 d2) ∧
    (∀ (c : Cache RecommendationResponse) (t0 now : ℤ) a1 a2 t1 t2 d1 d2 outcome1 outcome2 r1,
      c (get_cache_key a1 t1 d1) = .none →
      compute_recommendation outcome1 a1 = .ok r1 →
      get_cache_key a1 t1 d1 = get_cache_key a2 t2 d2 →
      now - t0 < cache_duration →
      get_recommendations c t0 a1 t1 d1 outcome1 =
        .ok (r1, false, c.insert (get_cache_key a1 t1 d1) (t0, r1)) ∧
      get_recommendations (c.insert (get_cache_key a1 t1 d1) (t0, r1)) now a2 t2 d2 outcome2 =
        .ok (r1, true, c.insert (get_cache_key a1 t1 d1) (t0, r1))) ∧
    (∀ (h : String → ℤ) (c : Cache ChatResponse) (now : ℤ)
        (req1 req2 : ChatRequest) outcome (t : ℤ) resp,
      get_chat_cache_key h req1 = get_chat_cache_key h req2 →
      c (get_chat_cache_key h req1) = some (t, resp) →
      now - t < cache_duration →
      chat c now h req2 outcome = (resp, true, c)) := by
  refine ⟨?_, ?_, ?_⟩
  · intro a1 a2 t1 t2 d1 d2 h5 ht hr hp
    simp only [get_cache_key, h5, ht, hr, hp]
  · intro c t0 now a1 a2 t1 t2 d1 d2 outcome1 outcome2 r1 hc hcompute hkey hlive
    refine ⟨get_recommendations_miss c t0 a1 t1 d1 outcome1 r1 hc hcompute, ?_⟩
    have hc2 : (c.insert (get_cache_key a1 t1 d1) (t0, r1)) (get_cache_key a2 t2 d2) =
        some (t0, r1) := by
      rw [← hkey]; exact cache_insert_self c _ _
    exact get_recommendations_live_hit _ now a2 t2 d2 outcome2 t0 r1 hc2 hlive
  · intro h c now req1 req2 outcome t resp hkey hc hlive
    exact chat_live_hit c now h req2 outcome t resp (hkey ▸ hc) hlive

theorem claim_C2_witness :
    (c2_first_players.take 5).map Player.name = (c2_second_players.take 5).map Player.name ∧
    c2_first_players ≠ c2_second_players ∧
    get_cache_key c2_first_players ⟨["Rob Roster"]⟩ ⟨some 1, some 5⟩ =
      get_cache_key c2_second_players ⟨["Rob Roster"]⟩ ⟨some 1, some 5⟩ ∧
    ∃ r1 c1,
      get_recommendations Cache.empty 0 c2_first_players ⟨["Rob Roster"]⟩
          ⟨some 1, some 5⟩ .noChain = .ok (r1, false, c1) ∧
      get_recommendations c1 250 c2_second_players ⟨["Rob Roster"]⟩
          ⟨some 1, some 5⟩ .chainRaises = .ok (r1, true, c1) := by
  have hkey := claim_C2.1 c2_first_players c2_second_players ⟨["Rob Roster"]⟩
    ⟨["Rob Roster"]⟩ ⟨some 1, some 5⟩ ⟨some 1, some 5⟩ rfl rfl rfl rfl
  have h := claim_C2.2.1 Cache.empty 0 250 c2_first_players c2_second_players
    ⟨["Rob Roster"]⟩ ⟨["Rob Roster"]⟩ ⟨some 1, some 5⟩ ⟨some 1, some 5⟩
    .noChain .chainRaises _ rfl rfl hkey (by decide)
  exact ⟨rfl, by decide, hkey, _, _, h.1, h.2⟩

/-- C3 (amended): for every non-empty available-player list on which the
Python sort key is well defined — no player has a truthy string
`projected_points`, and the rank components do not mix strings with
numbers — the fallback returns the players sorted by the key order
(ascending truthy rank with falsy rank last, ties by descending projected
points, cf. `sort_key_le_num_num`, `sort_key_le_num_inf`,
`sort_key_le_inf_inf`); the head of that order is the primary
recommendation with confidence exactly 0.6 and the next two players are
alternatives with confidences exactly 0.5 and 0.4; for players with ranks
3, 1, unknown, 2 the output order is 1, 2, 3, unknown with the rank-1
player as primary.  (The unamended claim fails: a truthy string
`projected_points` such as "N/A" makes the key computation raise
`TypeError`, and a falsy rank `0` sorts last rather than first.) -/
theorem claim_C3 :
    (∀ ps : List Player, ps ≠ [] →
      (∀ p ∈ ps, pp_key_raises p = false) →
      ((∀ p ∈ ps, (sort_key_rank p).isStr = false) ∨
        (∀ p ∈ ps, (sort_key_rank p).isStr = true)) →
      ∃ r, rule_based_recommendations ps = .ok r ∧
        List.Perm (sorted_players ps) ps ∧
        List.Sorted sort_key_rel (sorted_players ps) ∧
        (sorted_players ps).head? = some r.primary_recommendation.player ∧
        r.primary_recommendation.confidence_score = 0.6 ∧
        r.alternative_recommendations.map Recommendation.player =
          (sorted_players ps).tail.take 2 ∧
        r.alternative_recommendations.map Recommendation.confidence_score =
          [0.5, 0.4].take (sorted_players ps).tail.length) ∧
    (sorted_players rank_scenario_players).map Player.rank =
      [.num 1, .num 2, .num 3, .none] ∧
    (∃ r, rule_based_recommendations rank_scenario_players = .ok r ∧
      r.primary_recommendation.player.name = "Alice First" ∧
      r.primary_recommendation.confidence_score = 0.6) := by
  refine ⟨?_, by decide, ⟨_, rfl, rfl, rfl⟩⟩
  intro ps hne hpp hranks
  have h1 : ps.any pp_key_raises = false := by
    rw [List.any_eq_false]
    intro p hp
    simp [hpp p hp]
  have h2 : (ps.any (fun p => (sort_key_rank p).isStr) &&
      ps.any (fun p => !(sort_key_rank p).isStr)) = false := by
    rcases hranks with h | h
    · have hh : ps.any (fun p => (sort_key_rank p).isStr) = false := by
        rw [List.any_eq_false]
        intro p hp
        simp [h p hp]
      simp [hh]
    · have hh : ps.any (fun p => !(sort_key_rank p).isStr) = false := by
        rw [List.any_eq_false]
        intro p hp
        simp [h p hp]
      simp [hh]
  have hsr : sort_raises ps = false := by
    simp [sort_raises, h1, h2]
  have hE : ps.isEmpty = false := by
    simpa [List.isEmpty_iff] using hne
  have hperm := sorted_players_perm ps
  have hsne : sorted_players ps ≠ [] := by
    intro h0
    exact hne ((h0 ▸ hperm).symm.eq_nil)
  obtain ⟨primary_player, rest, hsp⟩ := List.exists_cons_of_ne_nil hsne
  · have heq : rule_based_recommendations ps = .ok
        { primary_recommendation :=
            { player := primary_player,
              reasoning := primary_player.name ++
                " is the highest ranked available player with " ++
                primary_player.projected_points.interp ++ " projected points",
              confidence_score := 0.6 },
          alternative_recommendations :=
            (rest.take 2).enum.map (fun ip =>
              { player := ip.2,
                reasoning := "Alternative option: " ++ ip.2.name ++ " with " ++
                  ip.2.projected_points.interp ++ " projected points",
                confidence_score := 0.5 - (ip.1 : ℚ) * 0.1 }),
          strategy_notes := "Using rule-based recommendations with actual player data",
          next_picks_suggestion :=
            ["Consider positional needs", "Check for value picks"] } := by
      unfold rule_based_recommendations
      rw [hE, hsr, hsp]
      rfl
    refine ⟨_, heq, hperm, sorted_players_sorted ps, ?_, rfl, ?_, ?_⟩
    · rw [hsp]
      rfl
    · rw [hsp]
      simp only [List.tail_cons, List.map_map]
      have : (Recommendation.player ∘ fun ip : ℕ × Player =>
          ({ player := ip.2,
             reasoning := "Alternative option: " ++ ip.2.name ++ " with " ++
               ip.2.projected_points.interp ++ " projected points",
             confidence_score := 0.5 - (ip.1 : ℚ) * 0.1 } : Recommendation)) =
          Prod.snd := rfl
      rw [this, List.enum_map_snd]
    · rw [hsp]
      simp only [List.tail_cons]
      rcases rest with _ | ⟨a, _ | ⟨b, rest3⟩⟩ <;>
        simp [List.enum, List.enumFrom] <;> norm_num

/-- C3 counterexample: the singleton list holding a player whose
`projected_points` is the truthy string "N/A" (with a known numeric rank)
is non-empty, yet the fallback raises `TypeError` while computing the sort
keys instead of returning that player as the primary recommendation. -/
theorem claim_C3_counterexample :
    [na_player] ≠ [] ∧
    na_player.rank = Val.num 12 ∧
    rule_based_recommendations [na_player] = .error () ∧
    (∀ r, rule_based_recommendations [na_player] ≠ .ok r) :=
  ⟨by simp, rfl, rfl, fun r hr => by
    rw [show rule_based_recommendations [na_player] = .error () from rfl] at hr
    exact Except.noConfusion hr⟩

/-- C5 (amended): an unparseable completion, an unresolvable primary
player name, or a raised chain call all fall back to the rule-based
computation, and whenever that computation itself succeeds,
`get_recommendations` returns its result and no exception reaches the
caller.  (The unamended claim fails: when the rule-based fallback itself
raises — e.g. a player with `projected_points` "N/A" — the exception does
propagate, cf. the counterexample.) -/
theorem claim_C5 (avail : List Player) (r : RecommendationResponse)
    (hok : rule_based_recommendations avail = .ok r) :
    parse_recommendation_response .none avail = .ok r ∧
    (∀ d : ParsedRecommendation,
      find_player_by_name d.primary_player_name avail = .none →
      parse_recommendation_response (some d) avail = .ok r) ∧
    (∀ (c : Cache RecommendationResponse) (now : ℤ) team dctx,
      c (get_cache_key avail team dctx) = .none →
      get_recommendations c now avail team dctx .chainRaises =
        .ok (r, false, c.insert (get_cache_key avail team dctx) (now, r)) ∧
      get_recommendations c now avail team dctx (.completion .none) =
        .ok (r, false, c.insert (get_cache_key avail team dctx) (now, r)) ∧
      (∀ d : ParsedRecommendation,
        find_player_by_name d.primary_player_name avail = .none →
        get_recommendations c now avail team dctx (.completion (some d)) =
          .ok (r, false, c.insert (get_cache_key avail team dctx) (now, r)))) := by
  have hparse_none : parse_recommendation_response .none avail = .ok r := hok
  have hparse_some : ∀ d : ParsedRecommendation,
      find_player_by_name d.primary_player_name avail = .none →
      parse_recommendation_response (some d) avail = .ok r := by
    intro d hfind
    simp only [parse_recommendation_response, hfind]
    exact hok
  refine ⟨hparse_none, hparse_some, ?_⟩
  intro c now team dctx hmiss
  exact ⟨get_recommendations_miss c now avail team dctx .chainRaises r hmiss hok,
    get_recommendations_miss c now avail team dctx (.completion .none) r hmiss hparse_none,
    fun d hfind => get_recommendations_miss c now avail team dctx
      (.completion (some d)) r hmiss (hparse_some d hfind)⟩

/-- C5 counterexample: an unparseable completion together with an
available player whose `projected_points` is the truthy string "N/A"
makes `get_recommendations` propagate the `TypeError` raised inside the
rule-based fallback instead of returning a response. -/
theorem claim_C5_counterexample :
    get_recommendations Cache.empty 0 [na_player] ⟨[]⟩ ⟨some 1, some 1⟩
        (.completion .none) = .error () ∧
    (∀ x, get_recommendations Cache.empty 0 [na_player] ⟨[]⟩ ⟨some 1, some 1⟩
        (.completion .none) ≠ .ok x) := by
  refine ⟨by rfl, fun x hx => ?_⟩
  rw [show get_recommendations Cache.empty 0 [na_player] ⟨[]⟩ ⟨some 1, some 1⟩
      (.completion .none) = .error () from rfl] at hx
  exact Except.noConfusion hx

/-- C6 (amended): on enrichment failure the original players are returned
unmodified; otherwise each player is merged with the Sleeper record found
under its lower-cased name (unmatched players are kept unchanged); on a
match, `rank`, `adp`, `value_score`, `injury_status`, `age` and
`experience` take the external value and `bye_week` stays local, while the
locally-supplied `projected_points` is kept exactly when it is truthy
(present and neither `None`, `0` nor the empty string) and not the "N/A"
marker, and is replaced by the external value otherwise.  (The unamended
claim fails: a present value of `0.0` is falsy, so the external value wins
even though `0.0` is present and not the marker, cf. the
counterexample.) -/
theorem claim_C6 :
    (∀ avail, enrich_recommendation_players .none avail = avail) ∧
    (∀ sleeper_players avail,
      (avail.filter (fun p => p.name ≠ "")).isEmpty = false →
      enrich_recommendation_players (some sleeper_players) avail =
        avail.map (fun p =>
          match sleeper_lookup sleeper_players (py_lower p.name) with
          | some s => merge_sleeper_player p s
          | .none => p)) ∧
    (∀ p s : Player,
      (merge_sleeper_player p s).rank = s.rank ∧
      (merge_sleeper_player p s).adp = s.adp ∧
      (merge_sleeper_player p s).value_score = s.value_score ∧
      (merge_sleeper_player p s).injury_status = s.injury_status ∧
      (merge_sleeper_player p s).age = s.age ∧
      (merge_sleeper_player p s).experience = s.experience ∧
      (merge_sleeper_player p s).bye_week = p.bye_week ∧
      (p.projected_points.truthy = true → p.projected_points ≠ .str "N/A" →
        (merge_sleeper_player p s).projected_points = p.projected_points) ∧
      (p.projected_points.truthy = false →
        (merge_sleeper_player p s).projected_points = s.projected_points) ∧
      (p.projected_points = .str "N/A" →
        (merge_sleeper_player p s).projected_points = s.projected_points)) := by
  have hcf : copy_player = id := funext fun _ => rfl
  refine ⟨?_, ?_, ?_⟩
  · intro avail
    simp [enrich_recommendation_players, hcf]
  · intro sleeper_players avail hne
    simp only [enrich_recommendation_players, hne, Bool.false_eq_true, if_false]
    refine List.map_congr_left fun p _ => ?_
    cases h : sleeper_lookup sleeper_players (py_lower p.name) <;> simp [h, hcf]
  · intro p s
    refine ⟨rfl, rfl, rfl, rfl, rfl, rfl, rfl, ?_, ?_, ?_⟩
    · intro h1 h2
      have hbeq : (p.projected_points == Val.str "N/A") = false := by
        simpa using h2
      simp [merge_sleeper_player, h1, hbeq]
    · intro h1
      simp [merge_sleeper_player, h1]
    · intro h1
      simp [merge_sleeper_player, h1]

/-- C6 counterexample: a player whose locally-supplied `projected_points`
is the present, non-marker number `0.0` does not keep it: the merged
player takes the external value `5` instead. -/
theorem claim_C6_counterexample :
    zero_pp_player.projected_points = Val.num 0 ∧
    zero_pp_player.projected_points ≠ Val.str "N/A" ∧
    (enrich_recommendation_players (some [sleeper_zed_player]) [zero_pp_player]).map
        Player.projected_points = [Val.num 5] ∧
    Val.num (5 : ℚ) ≠ Val.num 0 := by
  refine ⟨rfl, by decide, by rfl, ?_⟩
  simp only [ne_eq, Val.num.injEq]
  norm_num

theorem claim_C6_witness :
    (([zero_pp_player].filter (fun p => p.name ≠ "")).isEmpty = false) ∧
    zero_pp_player.projected_points.truthy = false ∧
    enrich_recommendation_players (some [sleeper_zed_player]) [zero_pp_player] =
      [zero_pp_player].map (fun p =>
        match sleeper_lookup [sleeper_zed_player] (py_lower p.name) with
        | some s => merge_sleeper_player p s
        | .none => p) ∧
    (merge_sleeper_player zero_pp_player sleeper_zed_player).rank =
      sleeper_zed_player.rank ∧
    (merge_sleeper_player zero_pp_player sleeper_zed_player).projected_points =
      sleeper_zed_player.projected_points := by
  have ht : zero_pp_player.projected_points.truthy = false := by decide
  exact ⟨by decide, ht,
    claim_C6.2.1 [sleeper_zed_player] [zero_pp_player] (by decide),
    (claim_C6.2.2 zero_pp_player sleeper_zed_player).1,
    (claim_C6.2.2 zero_pp_player sleeper_zed_player).2.2.2.2.2.2.2.2.1 ht⟩

theorem claim_C3_witness :
    rank_scenario_players ≠ [] ∧
    (∀ p ∈ rank_scenario_players, pp_key_raises p = false) ∧
    (∀ p ∈ rank_scenario_players, (sort_key_rank p).isStr = false) ∧
    ∃ r, rule_based_recommendations rank_scenario_players = .ok r ∧
      List.Perm (sorted_players rank_scenario_players) rank_scenario_players ∧
      List.Sorted sort_key_rel (sorted_players rank_scenario_players) ∧
      (sorted_players rank_scenario_players).head? = some r.primary_recommendation.player ∧
      r.primary_recommendation.confidence_score = 0.6 ∧
      r.alternative_recommendations.map Recommendation.player =
        (sorted_players rank_scenario_players).tail.take 2 ∧
      r.alternative_recommendations.map Recommendation.confidence_score =
        [0.5, 0.4].take (sorted_players rank_scenario_players).tail.length :=
  ⟨by decide, by decide, by decide,
    claim_C3.1 rank_scenario_players (by decide) (by decide) (.inl (by decide))⟩

theorem claim_C5_witness :
    ∃ r, rule_based_recommendations c1_witness_players = .ok r ∧
      parse_recommendation_response .none c1_witness_players = .ok r ∧
      (∀ d : ParsedRecommendation,
        find_player_by_name d.primary_player_name c1_witness_players = .none →
        parse_recommendation_response (some d) c1_witness_players = .ok r) := by
  refine ⟨_, rfl, ?_, ?_⟩
  · exact (claim_C5 c1_witness_players _ rfl).1
  · exact (claim_C5 c1_witness_players _ rfl).2.1

/-- Rounding half-to-even always lands on the floor or its successor. -/
theorem round_half_even_mem (y : ℚ) :
    round_half_even y = ⌊y⌋ ∨ round_half_even y = ⌊y⌋ + 1 := by
  unfold round_half_even
  split_ifs <;> simp

/-- Rounding half-to-even does not go below an integer lower bound. -/
theorem round_half_even_ge {y : ℚ} {lo : ℤ} (h : (lo : ℚ) ≤ y) :
    lo ≤ round_half_even y := by
  have hfl : lo ≤ ⌊y⌋ := Int.le_floor.mpr h
  rcases round_half_even_mem y with he | he <;> omega

/-- In the branches that round up, the fractional part is at least a
half, which forbids the floor from already sitting on the upper bound. -/
theorem floor_succ_le_of_half {y : ℚ} {hi : ℤ} (h : y ≤ hi)
    (hhalf : 1 / 2 ≤ y - ⌊y⌋) : ⌊y⌋ + 1 ≤ hi := by
  by_contra hc
  have hfl : ⌊y⌋ ≤ hi := by
    have := Int.floor_le_floor h
    rwa [Int.floor_intCast] at this
  have heq : ⌊y⌋ = hi := by omega
  have h1 : ((⌊y⌋ : ℤ) : ℚ) + 1 / 2 ≤ y := by linarith
  rw [heq] at h1
  linarith

/-- Rounding half-to-even does not exceed an integer upper bound. -/
theorem round_half_even_le {y : ℚ} {hi : ℤ} (h : y ≤ hi) :
    round_half_even y ≤ hi := by
  have hfl : ⌊y⌋ ≤ hi := by
    have := Int.floor_le_floor h
    rwa [Int.floor_intCast] at this
  unfold round_half_even
  split_ifs with h1 h2 h3
  · exact hfl
  · exact floor_succ_le_of_half h (le_of_lt h2)
  · exact hfl
  · exact floor_succ_le_of_half h (by linarith [not_lt.mp h1])

/-- `round(x, 1)` stays inside any integer interval containing `x`. -/
theorem py_round_1_bounds {x : ℚ} {a b : ℤ} (ha : (a : ℚ) ≤ x) (hb : x ≤ b) :
    (a : ℚ) ≤ py_round_1 x ∧ py_round_1 x ≤ b := by
  have h1 : ((10 * a : ℤ) : ℚ) ≤ x * 10 := by push_cast; linarith
  have h2 : x * 10 ≤ ((10 * b : ℤ) : ℚ) := by push_cast; linarith
  have hge := round_half_even_ge h1
  have hle := round_half_even_le h2
  have hge2 : ((10 * a : ℤ) : ℚ) ≤ (round_half_even (x * 10) : ℚ) := by
    exact_mod_cast hge
  have hle2 : ((round_half_even (x * 10) : ℤ) : ℚ) ≤ ((10 * b : ℤ) : ℚ) := by
    exact_mod_cast hle
  constructor
  · unfold py_round_1
    rw [le_div_iff₀ (by norm_num : (0 : ℚ) < 10)]
    push_cast at hge2 ⊢
    linarith
  · unfold py_round_1
    rw [div_le_iff₀ (by norm_num : (0 : ℚ) < 10)]
    push_cast at hle2 ⊢
    linarith

/-- `round(n, 1)` is the identity on integers. -/
theorem py_round_1_intCast (n : ℤ) : py_round_1 (n : ℚ) = n := by
  unfold py_round_1 round_half_even
  have hc : ((n : ℚ) * 10) = ((10 * n : ℤ) : ℚ) := by push_cast; ring
  rw [hc, Int.floor_intCast]
  rw [if_pos (by norm_num)]
  push_cast
  ring

/-- C8: for every external rank at least 1, the synthetic ADP is floored
at 1, the pseudo-random offset lies in `[-10, 9]`, and the synthetic value
score lies in the closed interval `[1, 10]`. -/
theorem claim_C8 (rank id_hash : ℤ) (h : 1 ≤ rank) :
    (-10 ≤ sleeper_adp_variance id_hash ∧ sleeper_adp_variance id_hash ≤ 9) ∧
    1 ≤ sleeper_adp rank id_hash ∧
    1 ≤ sleeper_value_score rank id_hash ∧ sleeper_value_score rank id_hash ≤ 10 := by
  have hv1 : 0 ≤ id_hash % 20 := Int.emod_nonneg id_hash (by norm_num)
  have hv2 : id_hash % 20 < 20 := Int.emod_lt_of_pos id_hash (by norm_num)
  have hvlo : -10 ≤ sleeper_adp_variance id_hash := by
    unfold sleeper_adp_variance
    omega
  have hvhi : sleeper_adp_variance id_hash ≤ 9 := by
    unfold sleeper_adp_variance
    omega
  have hadp : sleeper_adp rank id_hash =
      ((max 1 (rank + sleeper_adp_variance id_hash) : ℤ) : ℚ) := by
    unfold sleeper_adp
    rw [show max (1 : ℚ) ((rank : ℚ) + (sleeper_adp_variance id_hash : ℚ)) =
        ((max 1 (rank + sleeper_adp_variance id_hash) : ℤ) : ℚ) by push_cast; rfl]
    exact py_round_1_intCast _
  have hadp1 : 1 ≤ sleeper_adp rank id_hash := by
    rw [hadp]
    exact_mod_cast le_max_left 1 (rank + sleeper_adp_variance id_hash)
  have hadp_pos : 0 < sleeper_adp rank id_hash := lt_of_lt_of_le one_pos hadp1
  refine ⟨⟨hvlo, hvhi⟩, hadp1, ?_⟩
  have hrank_pos : (0 : ℤ) < rank := by omega
  unfold sleeper_value_score
  dsimp only
  rw [if_pos ⟨hadp_pos, hrank_pos⟩]
  have hdiff : sleeper_adp rank id_hash - (rank : ℚ) =
      ((max 1 (rank + sleeper_adp_variance id_hash) - rank : ℤ) : ℚ) := by
    rw [hadp]
    push_cast
    ring
  by_cases hd : 0 < sleeper_adp rank id_hash - (rank : ℚ)
  · rw [if_pos hd]
    have hdle : sleeper_adp rank id_hash - (rank : ℚ) ≤ 9 := by
      rw [hdiff] at hd ⊢
      have hdz : 0 < max 1 (rank + sleeper_adp_variance id_hash) - rank := by
        exact_mod_cast hd
      rcases le_total (rank + sleeper_adp_variance id_hash) 1 with hc | hc
      · rw [max_eq_left hc] at hdz ⊢
        exact_mod_cast by omega
      · rw [max_eq_right hc] at hdz ⊢
        exact_mod_cast by omega
    have hlow : (1 : ℚ) ≤ min 10 (7 + (sleeper_adp rank id_hash - (rank : ℚ)) / 10) := by
      refine le_min (by norm_num) ?_
      nlinarith
    have hhigh : min 10 (7 + (sleeper_adp rank id_hash - (rank : ℚ)) / 10) ≤ 10 :=
      min_le_left _ _
    have := py_round_1_bounds (a := 1) (b := 10) (by exact_mod_cast hlow) (by exact_mod_cast hhigh)
    exact ⟨by exact_mod_cast this.1, by exact_mod_cast this.2⟩
  · rw [if_neg hd]
    push_neg at hd
    have hlow : (1 : ℚ) ≤ max 1 (7 + (sleeper_adp rank id_hash - (rank : ℚ)) / 10) :=
      le_max_left _ _
    have hhigh : max 1 (7 + (sleeper_adp rank id_hash - (rank : ℚ)) / 10) ≤ 10 := by
      refine max_le (by norm_num) ?_
      nlinarith
    have := py_round_1_bounds (a := 1) (b := 10) (by exact_mod_cast hlow) (by exact_mod_cast hhigh)
    exact ⟨by exact_mod_cast this.1, by exact_mod_cast this.2⟩

theorem claim_C8_witness :
    (1 : ℤ) ≤ 3 ∧
    1 ≤ sleeper_value_score 3 7 ∧ sleeper_value_score 3 7 ≤ 10 ∧
    1 ≤ sleeper_adp 3 7 :=
  ⟨by decide, (claim_C8 3 7 (by decide)).2.2.1, (claim_C8 3 7 (by decide)).2.2.2,
    (claim_C8 3 7 (by decide)).2.1⟩


end FantasyDraft
